import Mathlib

/-!
A shallow embedding of src/research_bot.py, developed to check the
specification's claims about the scrape, dedup and notify pipeline.
Python strings are modelled as lists of characters, machine-level
exceptions as explicit Except values, and the scrape cycle as a pure
function from the persisted state and the parsed remote listings to the
next state together with a trace of persistence and notification events.
-/

/-- Python strings are modelled as lists of characters. -/
abbrev Str := List Char

/-- ASCII whitespace, as stripped by Python's str.strip and matched by a
whitespace class in a pattern. -/
def pyIsSpace (c : Char) : Bool :=
  c == ' ' || c == '\t' || c == '\n' || c == '\r' || c == '\x0b' || c == '\x0c'

/-- Python str.strip(): remove whitespace from both ends. -/
def pyStrip (l : Str) : Str :=
  ((l.dropWhile pyIsSpace).reverse.dropWhile pyIsSpace).reverse

/-- Python str.lower(), ASCII model. -/
def pyLowerStr (l : Str) : Str := l.map Char.toLower

/-- Boolean test that `g` is an initial segment of `l`. -/
def listPre : Str → Str → Bool
  | [], _ => true
  | _ :: _, [] => false
  | a :: g, b :: l => a == b && listPre g l

/-- Python `needle in hay` substring test. -/
def pyContainsSub (needle hay : Str) : Bool :=
  (List.range (hay.length + 1)).any fun i => listPre needle (hay.drop i)

/-- Word characters of the title pattern (ASCII model). -/
def isWordChar (c : Char) : Bool := c.isAlphanum || c == '_'

/-- Case-insensitive match of the lowercase keyword `kw` at the front of `l`. -/
def matchKw (kw l : Str) : Bool := pyLowerStr (l.take kw.length) == kw

/-- The three-letter month alternatives of the boilerplate pattern on
line 354 of src/research_bot.py, lowercased for case-insensitive matching. -/
def monthAbbrevs : List Str :=
  ["jan".data, "feb".data, "mar".data, "apr".data, "may".data, "jun".data,
   "jul".data, "aug".data, "sep".data, "oct".data, "nov".data, "dec".data]

/-- The day-month-year alternative of the boilerplate pattern, attempted
with a digit run of length `n` (two digits first, then one). Returns the
number of characters consumed on a match. -/
def altDateAt (n : Nat) (l : Str) : Option Nat :=
  if (l.take n).length = n ∧ (l.take n).all Char.isDigit then
    let l1 := l.drop n
    let s1 := (l1.takeWhile pyIsSpace).length
    if s1 = 0 then none else
    let l2 := l1.drop s1
    if monthAbbrevs.any (fun m => matchKw m l2) then
      let l3 := l2.drop 3
      let s2 := (l3.takeWhile pyIsSpace).length
      if s2 = 0 then none else
      let l4 := l3.drop s2
      if (l4.take 4).length = 4 ∧ (l4.take 4).all Char.isDigit then
        some (n + s1 + 3 + s2 + 4)
      else none
    else none
  else none

/-- The day-month-year alternative: one or two digits, whitespace, a month
abbreviation, whitespace, a four-digit year. -/
def altDate (l : Str) : Option Nat :=
  (altDateAt 2 l).orElse fun _ => altDateAt 1 l

/-- The relative-time alternative of the boilerplate pattern: digits,
whitespace, "hours" or "days", whitespace, "ago". -/
def altAgo (l : Str) : Option Nat :=
  let d := (l.takeWhile Char.isDigit).length
  if d = 0 then none else
  let l1 := l.drop d
  let s1 := (l1.takeWhile pyIsSpace).length
  if s1 = 0 then none else
  let l2 := l1.drop s1
  let kwLen : Option Nat :=
    if matchKw "hours".data l2 then some 5
    else if matchKw "days".data l2 then some 4
    else none
  match kwLen with
  | none => none
  | some k =>
    let l3 := l2.drop k
    let s2 := (l3.takeWhile pyIsSpace).length
    if s2 = 0 then none else
    if matchKw "ago".data (l3.drop s2) then some (d + s1 + k + s2 + 3)
    else none

/-- One iteration of the boilerplate group of line 354: a word, optional
whitespace, a dash, optional whitespace, then either a day-month-year
date or an "N hours/days ago" annotation, then trailing whitespace.
Returns the number of characters consumed when the iteration matches. -/
def iterBoiler (l : Str) : Option Nat :=
  let w := (l.takeWhile isWordChar).length
  if w = 0 then none else
  let l1 := l.drop w
  let s1 := (l1.takeWhile pyIsSpace).length
  match l1.drop s1 with
  | '-' :: l2 =>
    let s2 := (l2.takeWhile pyIsSpace).length
    let l3 := l2.drop s2
    match (altDate l3).orElse fun _ => altAgo l3 with
    | none => none
    | some d =>
      let l4 := l3.drop d
      let s3 := (l4.takeWhile pyIsSpace).length
      some (w + s1 + 1 + s2 + d + s3)
  | _ => none

/-- Repetitions of the boilerplate group: total prefix length matched by
the starred group, anchored at the start of the title. -/
def boilerLoop : Nat → Str → Nat
  | 0, _ => 0
  | fuel + 1, l =>
    match iterBoiler l with
    | none => 0
    | some d => if d = 0 then 0 else d + boilerLoop fuel (l.drop d)

/-- Substitution of lines 354-355: the anchored boilerplate prefix is
removed from the front of the title. -/
def stripBoilerplate (l : Str) : Str := l.drop (boilerLoop l.length l)

/-- Maximal number of consecutive copies of `g` at the front of `l`. -/
def copiesCount : Nat → Str → Str → Nat
  | 0, _, _ => 0
  | fuel + 1, g, l => if listPre g l then 1 + copiesCount fuel g (l.drop g.length) else 0

/-- Leftmost-shortest repeated group at the front of `l`, as matched by
the substitution on line 358: a lazy nonempty group of non-newline
characters followed by at least one further copy of it. Returns the
group length and the total length consumed by the match. -/
def squareAt (l : Str) : Option (Nat × Nat) :=
  match (List.range' 1 (l.length / 2)).find?
      (fun k => (l.take k).all (fun c => !(c == '\n')) && listPre (l.take k) (l.drop k)) with
  | none => none
  | some k =>
    some (k, k + (l.take k).length * copiesCount l.length (l.take k) (l.drop k))

/-- Scan for the substitution on line 358: at each position, when a
repeated group starts there, one copy of the group is kept and the scan
resumes after the matched region. -/
def pyCollapseAux : Nat → Str → Str
  | 0, l => l
  | _ + 1, [] => []
  | fuel + 1, c :: rest =>
    match squareAt (c :: rest) with
    | some kc => (c :: rest).take kc.1 ++ pyCollapseAux fuel ((c :: rest).drop kc.2)
    | none => c :: pyCollapseAux fuel rest

/-- Substitution of line 358: collapse immediately repeated substrings,
left to right, keeping one copy of each repeated group. -/
def pyCollapse (l : Str) : Str := pyCollapseAux l.length l

/-- Python s.split(sep, 1) for a one-character separator: the text before
the first occurrence, and the remainder when the separator occurs. -/
def pySplitOnce (sep : Char) : Str → Str × Option Str
  | [] => ([], none)
  | c :: rest =>
    if c == sep then ([], some rest)
    else
      let r := pySplitOnce sep rest
      (c :: r.1, r.2)

/-- Lines 354-357: strip the boilerplate front matter, restoring the
original title when the stripped title is empty. -/
def normalizeStep1 (raw : Str) : Str :=
  if pyStrip (stripBoilerplate raw) = [] then raw else pyStrip (stripBoilerplate raw)

/-- Line 358: collapse repeated substrings and strip the result. -/
def normalizeStep2 (t : Str) : Str := pyStrip (pyCollapse t)

/-- Lines 359-361: when the text before the first period reoccurs in the
remainder, keep a single occurrence of it followed by the period. -/
def normalizeStep3 (t2 : Str) : Str :=
  match pySplitOnce '.' t2 with
  | (seg, some rest) =>
    if pyContainsSub (pyStrip seg) rest then pyStrip seg ++ ['.'] else t2
  | (_, none) => t2

/-- Title normalization of lines 353-361: strip the boilerplate front
matter (restoring the original title when stripping empties it),
collapse repeated substrings, and when the text before the first period
reoccurs in the remainder keep a single occurrence of it. -/
def normalizeTitle (raw : Str) : Str :=
  normalizeStep3 (normalizeStep2 (normalizeStep1 raw))

/-- Value of an ASCII digit character. -/
def digitVal (c : Char) : Nat := c.toNat - 48

/-- Decimal digits of a natural number, most significant first. -/
def natDigits : Nat → Nat → Str
  | 0, _ => []
  | fuel + 1, n =>
    if n < 10 then [Char.ofNat (48 + n)]
    else natDigits fuel (n / 10) ++ [Char.ofNat (48 + n % 10)]

/-- Python str() of an integer. -/
def pyIntStr (i : Int) : Str :=
  if i < 0 then '-' :: natDigits (i.natAbs + 1) i.natAbs
  else natDigits (i.natAbs + 1) i.natAbs

/-- Article identifier of line 375: art_id = source + underscore + str(hash(url)).
`pyHash` stands for the interpreter's string hash function, which is fixed
for one process run by the interpreter's hash seed. -/
def identifierOf (pyHash : Str → Int) (source url : Str) : Str :=
  source ++ '_' :: pyIntStr (pyHash url)

/-- Exceptions of the modelled Python fragments. -/
inductive PyErr
  | keyError
  | valueError
  | typeError
deriving DecidableEq

deriving instance DecidableEq for Except

/-- Failure of an HTTP fetch: a network error or a raise_for_status error. -/
inductive FetchErr
  | network
  | httpStatus
deriving DecidableEq

/-- Python datetime value: an abstract chronological coordinate together
with the presence of timezone information. strptime produces naive values
(aware = false); datetime.now(tz) produces aware ones. -/
structure PyDateTime where
  stamp : Int
  aware : Bool
deriving DecidableEq

/-- Python comparison of two datetime values: comparing a naive and an
aware value raises TypeError. -/
def pyGtDatetime (a b : PyDateTime) : Except PyErr Bool :=
  if a.aware = b.aware then .ok (decide (b.stamp < a.stamp))
  else .error .typeError

/-- Numeric field of one or two digits with an inclusive range check, as
matched by strptime. Returns the value and the rest of the input. -/
def parseField (lo hi : Nat) : Str → Option (Nat × Str)
  | [] => none
  | c :: rest =>
    if c.isDigit then
      match rest with
      | c2 :: rest2 =>
        if c2.isDigit then
          let v := digitVal c * 10 + digitVal c2
          if lo ≤ v ∧ v ≤ hi then some (v, rest2) else none
        else
          let v := digitVal c
          if lo ≤ v ∧ v ≤ hi then some (v, rest) else none
      | [] =>
        let v := digitVal c
        if lo ≤ v ∧ v ≤ hi then some (v, []) else none
    else none

/-- Literal character of a strptime format. -/
def parseLit (c : Char) : Str → Option Str
  | [] => none
  | x :: rest => if x == c then some rest else none

/-- Whitespace in a strptime format: one or more whitespace characters. -/
def parseWs (l : Str) : Option Str :=
  match l with
  | c :: rest => if pyIsSpace c then some ((c :: rest).dropWhile pyIsSpace) else none
  | [] => none

/-- Exactly four digits, the year field of strptime. -/
def parseYear : Str → Option (Nat × Str)
  | a :: b :: c :: d :: rest =>
    if a.isDigit && b.isDigit && c.isDigit && d.isDigit then
      some (((digitVal a * 10 + digitVal b) * 10 + digitVal c) * 10 + digitVal d, rest)
    else none
  | _ => none

/-- Chronological coordinate of a calendar field tuple; monotone in the
lexicographic order of (year, month, day, hour, minute). -/
def dtStamp (y mo d h mi : Nat) : Int :=
  Int.ofNat ((((y * 13 + mo) * 32 + d) * 24 + h) * 60 + mi)

/-- strptime with the format of line 339, hour:minute day/month/year.
Returns the chronological coordinate of the parsed naive datetime; None
models the ValueError raise. The full input must be consumed, as
strptime requires. -/
def strptimeHM (l : Str) : Option Int :=
  (parseField 0 23 l).bind fun hv =>
  (parseLit ':' hv.2).bind fun l1 =>
  (parseField 0 59 l1).bind fun mv =>
  (parseWs mv.2).bind fun l2 =>
  (parseField 1 31 l2).bind fun dv =>
  (parseLit '/' dv.2).bind fun l3 =>
  (parseField 1 12 l3).bind fun mov =>
  (parseLit '/' mov.2).bind fun l4 =>
  (parseYear l4).bind fun yv =>
  match yv.2 with
  | [] => some (dtStamp yv.1 mov.1 dv.1 hv.1 mv.1)
  | _ :: _ => none

/-- Article record as built by the monitors: a dict with title, url, date
and source fields. -/
structure Article where
  title : Str
  url : Str
  date : Str
  source : Str
deriving DecidableEq

/-- Filter of the dict comprehension on lines 335-341, applied to one
pending entry: an entry with an empty date or the date "n/a" is dropped
without error; otherwise its date is parsed with strptime (ValueError on
mismatch) and the naive result is compared against the cutoff (TypeError
when the cutoff is timezone-aware). -/
def evictionKeep (cutoff : PyDateTime) (a : Article) : Except PyErr Bool :=
  if a.date.isEmpty then .ok false
  else if pyLowerStr a.date = "n/a".data then .ok false
  else
    match strptimeHM a.date with
    | none => .error .valueError
    | some st => pyGtDatetime ⟨st, false⟩ cutoff

/-- Eviction of lines 335-341: rebuild the pending map keeping the
entries the filter accepts; any raise aborts the whole comprehension and
leaves the map unchanged. -/
def evictPending (cutoff : PyDateTime) :
    List (Str × Article) → Except PyErr (List (Str × Article))
  | [] => .ok []
  | (id, a) :: rest =>
    match evictionKeep cutoff a with
    | .error e => .error e
    | .ok keep =>
      match evictPending cutoff rest with
      | .error e => .error e
      | .ok rest2 => .ok (if keep then (id, a) :: rest2 else rest2)

/-- Full month names of strptime %B, lowercased. -/
def monthNames : List (Str × Nat) :=
  [("january".data, 1), ("february".data, 2), ("march".data, 3),
   ("april".data, 4), ("may".data, 5), ("june".data, 6), ("july".data, 7),
   ("august".data, 8), ("september".data, 9), ("october".data, 10),
   ("november".data, 11), ("december".data, 12)]

/-- strptime with the ADMIS listing format of line 87, month-name day,
year. Returns the (month, day, year) fields; None models ValueError. -/
def strptimeBdY (l : Str) : Option (Nat × Nat × Nat) :=
  ((monthNames.find? fun m => matchKw m.1 l).bind fun m =>
    (parseWs (l.drop m.1.length)).bind fun l1 =>
    (parseField 1 31 l1).bind fun dv =>
    (parseLit ',' dv.2).bind fun l2 =>
    (parseWs l2).bind fun l3 =>
    (parseYear l3).bind fun yv =>
    match yv.2 with
    | [] => some (m.2, dv.1, yv.1)
    | _ :: _ => none)

/-- Two-digit zero-padded decimal rendering. -/
def pad2 (n : Nat) : Str :=
  if n < 10 then ['0', Char.ofNat (48 + n)] else natDigits (n + 1) n

/-- Date normalization of lines 86-90: a date in the listing format is
reformatted as hour:minute day/month/year (midnight); any other text is
kept unchanged. -/
def admisFormatDate (raw : Str) : Str :=
  match strptimeBdY raw with
  | some mdy =>
    "00:00 ".data ++ pad2 mdy.2.1 ++ '/' :: pad2 mdy.1 ++ '/' :: natDigits (mdy.2.2 + 1) mdy.2.2
  | none => raw

/-- Anchor element: its stripped text and its href attribute when present;
subscripting a missing href raises KeyError. -/
structure AnchorTag where
  text : Str
  href : Option Str
deriving DecidableEq

/-- Heading element of the ADMIS listing: its first anchor when present
and the text of its following paragraph sibling when present. -/
structure H3Block where
  anchor : Option AnchorTag
  dateSibling : Option Str
deriving DecidableEq

namespace ADMISMonitor

/-- Base URL of the ADMIS site. -/
def baseUrl : Str := "https://www.admis.com".data

/-- Parse-and-dedup loop of lines 77-98: headings without an anchor are
skipped; an anchor without an href raises KeyError; relative hrefs are
resolved against the base URL; unseen urls are added to the seen set
(persisted at once) and collected as new articles. -/
def checkNewLoop : List H3Block → List Str → Except PyErr (List Article × List Str)
  | [], seen => .ok ([], seen)
  | h3 :: rest, seen =>
    match h3.anchor with
    | none => checkNewLoop rest seen
    | some a =>
      match a.href with
      | none => .error .keyError
      | some href =>
        let url := if listPre "http".data href then href else baseUrl ++ href
        let date := admisFormatDate (match h3.dateSibling with
          | some t => t
          | none => [])
        let art : Article := ⟨a.text, url, date, "ADMIS Written Commentary".data⟩
        if url ∈ seen then checkNewLoop rest seen
        else
          match checkNewLoop rest (url :: seen) with
          | .error e => .error e
          | .ok r => .ok (art :: r.1, r.2)

/-- check_new of lines 68-100: a fetch failure is caught and yields the
empty list (lines 69-74); the parse loop runs outside that handler. -/
def check_new (fetched : Except FetchErr (List H3Block)) (seen : List Str) :
    Except PyErr (List Article × List Str) :=
  match fetched with
  | .error _ => .ok ([], seen)
  | .ok page => checkNewLoop page seen

end ADMISMonitor

/-- Anchor of the Saxo listing; find_all with href=True yields only
anchors that carry an href. -/
structure SaxoAnchor where
  text : Str
  href : Str
deriving DecidableEq

namespace SaxoMonitor

/-- Base URL of the Saxo site. -/
def baseUrl : Str := "https://www.home.saxo".data

/-- Parse-and-dedup loop of lines 124-140: anchors whose href does not
contain the articles path are skipped, as are titles shorter than five
characters; unseen resolved urls are persisted and collected. -/
def checkNewLoop : List SaxoAnchor → List Str → List Article × List Str
  | [], seen => ([], seen)
  | a :: rest, seen =>
    if !(pyContainsSub "/content/articles/".data a.href) then checkNewLoop rest seen
    else if a.text.isEmpty || a.text.length < 5 then checkNewLoop rest seen
    else
      let url := if listPre "http".data a.href then a.href else baseUrl ++ a.href
      let art : Article := ⟨a.text, url, [], "Saxo Bank Research".data⟩
      if url ∈ seen then checkNewLoop rest seen
      else
        let r := checkNewLoop rest (url :: seen)
        (art :: r.1, r.2)

/-- check_new of lines 115-142: a fetch failure is caught and yields the
empty list; the parse loop cannot raise. -/
def check_new (fetched : Except FetchErr (List SaxoAnchor)) (seen : List Str) :
    List Article × List Str :=
  match fetched with
  | .error _ => ([], seen)
  | .ok page => checkNewLoop page seen

end SaxoMonitor

/-- Observable events of one scrape cycle: a url being written to a
monitor's durable seen file (lines 93-96 and 135-138), and a notification
for an article being sent (line 390; one event per article, fanned out to
each allowed user by the inner loop). -/
inductive Event
  | persist (url : Str)
  | notify (a : Article)

/-- Result of the dedup loop shared by the monitors, applied to the
candidate records parsed from one listing. -/
structure LoopOut where
  fresh : List Article
  seen : List Str
  trace : List Event

/-- Dedup-and-persist loop of a monitor's check_new (lines 92-98), over
the candidate records parsed from its listing page: each unseen url is
added to the seen set, the set is persisted at once, and the record is
collected as new. -/
def cycleCheckNew : List Article → List Str → LoopOut
  | [], seen => ⟨[], seen, []⟩
  | a :: rest, seen =>
    if a.url ∈ seen then cycleCheckNew rest seen
    else
      let r := cycleCheckNew rest (a.url :: seen)
      ⟨a :: r.fresh, r.seen, .persist a.url :: r.trace⟩

/-- Result of scraping every monitor in order. -/
structure ScrapeOut where
  fresh : List Article
  seens : List (List Str)
  trace : List Event

/-- Lines 345-346: each monitor's check_new runs in order; the new
records are consumed in that order by the cycle body. -/
def scrapeSites : List (List Article × List Str) → ScrapeOut
  | [] => ⟨[], [], []⟩
  | (listing, seen) :: rest =>
    let r := cycleCheckNew listing seen
    let rr := scrapeSites rest
    ⟨r.fresh ++ rr.fresh, r.seen :: rr.seens, r.trace ++ rr.trace⟩

/-- Condition of lines 363-365: the normalized title contains "podcast"
or "webinar" after lowercasing. -/
def isSkippedTitle (raw : Str) : Bool :=
  let n := pyLowerStr (normalizeTitle raw)
  pyContainsSub "podcast".data n || pyContainsSub "webinar".data n

/-- Accumulated state of the cycle body. -/
structure MainOut where
  cyc : List Str
  pending : List (Str × Article)
  fresh : List (Str × Article)

/-- Cycle body of lines 346-378: urls already handled in this cycle are
skipped, the title is normalized, podcast and webinar items are skipped,
and an article whose identifier is not yet registered is added to the
pending registry and queued for notification. -/
def cycleBody (pyHash : Str → Int) :
    List Article → List Str → List (Str × Article) → MainOut
  | [], cyc, pending => ⟨cyc, pending, []⟩
  | a :: rest, cyc, pending =>
    if a.url ∈ cyc then cycleBody pyHash rest cyc pending
    else
      let cyc2 := a.url :: cyc
      if isSkippedTitle a.title then cycleBody pyHash rest cyc2 pending
      else
        let id := identifierOf pyHash a.source a.url
        if id ∈ pending.map Prod.fst then cycleBody pyHash rest cyc2 pending
        else
          let r := cycleBody pyHash rest cyc2 (pending ++ [(id, a)])
          ⟨r.cyc, r.pending, (id, a) :: r.fresh⟩

/-- Retention window of line 334, thirty days in minutes. -/
def retentionMinutes : Int := 30 * 24 * 60

/-- Result of one scrape cycle. -/
structure CycleResult where
  seenAfter : List (List Str)
  pendingAfter : List (Str × Article)
  sent : List (Str × Article)
  trace : List Event
  raised : Bool

/-- check_sites_callback of lines 324-395 over the parsed listings: the
pending registry is evicted first (lines 332-343; a raise there aborts
the cycle before anything is scraped, persisted or sent), then each
monitor scrapes and persists its seen set, then the cycle body registers
new articles, then notifications are sent for the queued articles.
`now` is the aware wall-clock coordinate of line 334. -/
def check_sites_callback (pyHash : Str → Int) (now : Int)
    (sites : List (List Article × List Str)) (pending : List (Str × Article)) :
    CycleResult :=
  match evictPending ⟨now - retentionMinutes, true⟩ pending with
  | .error _ => ⟨sites.map Prod.snd, pending, [], [], true⟩
  | .ok pendE =>
    ⟨(scrapeSites sites).seens,
     (cycleBody pyHash (scrapeSites sites).fresh [] pendE).pending,
     (cycleBody pyHash (scrapeSites sites).fresh [] pendE).fresh,
     (scrapeSites sites).trace
       ++ (cycleBody pyHash (scrapeSites sites).fresh [] pendE).fresh.map
            (fun p => .notify p.2),
     false⟩

/-- Check that every notification in a trace is preceded by the
persistence of the notified article's url, given the set of urls
persisted so far. -/
def traceOk : List Str → List Event → Bool
  | _, [] => true
  | ps, .persist u :: t => traceOk (u :: ps) t
  | ps, .notify a :: t => decide (a.url ∈ ps) && traceOk ps t

/-- start_bot of lines 225-230: a user outside the admin-plus-allowed
list is answered with exactly one message, "Unauthorized."; an allowed
user with the running confirmation. The returned list is the sequence of
replies sent. -/
def start_bot (adminId : Int) (allowedUserIds : List Int) (userId : Int) : List Str :=
  if userId ∉ adminId :: allowedUserIds then
    ["Unauthorized.".data]
  else
    ["Bot is running. I will notify you of new research articles.".data]

/-- Final step of insights_callback, lines 313-321: the summary returned
by the endpoint is passed to edit_message_text unchanged (line 317); an
endpoint failure is answered with the error text (line 320). The result
is the message text handed to the chat transport. -/
def insightsSummaryMessage (endpointResult : Except PyErr Str) : Str :=
  match endpointResult with
  | .ok uaSummary => uaSummary
  | .error _ => "Error summarizing or translating.".data

/-- Urls persisted during a scrape, accumulated left to right over a
list of scraped records. -/
def persAcc : List Article → List Str → List Str
  | [], ps => ps
  | a :: rest, ps => persAcc rest (a.url :: ps)

/-- Concrete one-article listing used to instantiate the two-run
idempotence theorem. -/
def sampleSitesC6 : List (List Article × List Str) :=
  [([⟨"Macro outlook".data, "https://www.home.saxo/content/articles/m".data,
      [], "Saxo Bank Research".data⟩], [])]

/-- Concrete article used to instantiate the skip-filter theorem. -/
def sampleArticleC9 : Article :=
  ⟨"Weekly outlook".data, "https://www.home.saxo/content/articles/w".data,
   [], "Saxo Bank Research".data⟩

/-- Concrete one-listing cycle input for the skip-filter theorem. -/
def sampleSitesC9 : List (List Article × List Str) := [([sampleArticleC9], [])]

/-- Identifier-record pair the concrete cycle sends and registers. -/
def samplePairC9 : Str × Article :=
  (identifierOf (fun _ => 0) sampleArticleC9.source sampleArticleC9.url, sampleArticleC9)

/-- C1: the article identifier of line 375 is built from the process's
string hash; two runs whose interpreter hash seeds induce different hash
values for the url produce different identifiers for the same
(source, url) pair, so the identifier is not stable across restarts. -/
theorem identifier_depends_on_hash_seed :
    identifierOf (fun _ => 0) "Saxo Bank Research".data
        "https://www.home.saxo/content/articles/x".data
      ≠ identifierOf (fun _ => 1) "Saxo Bank Research".data
        "https://www.home.saxo/content/articles/x".data := by
  decide

/-- C3: the eviction of lines 335-341 raises TypeError on any pending
entry whose date parses, because the naive strptime result is compared
with the timezone-aware cutoff; and it silently drops an entry with an
empty date regardless of its age. -/
theorem eviction_raises_type_error :
    evictPending ⟨0, true⟩
        [("ADMIS Written Commentary_1".data,
          ⟨"Daily Grain Commentary".data, "https://www.admis.com/a".data,
           "00:00 10/10/2026".data, "ADMIS Written Commentary".data⟩)]
      = Except.error PyErr.typeError
    ∧ evictPending ⟨0, true⟩
        [("Saxo Bank Research_2".data,
          ⟨"Macro note".data, "https://www.home.saxo/content/articles/m".data,
           [], "Saxo Bank Research".data⟩)]
      = Except.ok [] := by
  constructor
  · decide
  · decide

/-- C4: the summary text produced by the endpoint is handed to the chat
transport unchanged by line 317, so a 4097-character summary yields a
rendered message longer than 4096 characters. -/
theorem summary_message_not_truncated :
    4096 < (insightsSummaryMessage (Except.ok (List.replicate 4097 'a'))).length := by
  have h : insightsSummaryMessage (Except.ok (List.replicate 4097 'a'))
      = List.replicate 4097 'a' := rfl
  rw [h, List.length_replicate]
  omega

/-- C5 counterexample: a parse failure is not caught by check_new; an
ADMIS heading whose anchor has no href attribute makes check_new raise
KeyError instead of returning an empty candidate list. -/
theorem admis_parse_error_propagates :
    ADMISMonitor.check_new
        (Except.ok [⟨some ⟨"Daily Grain Commentary".data, none⟩,
                     some "October 10, 2026".data⟩]) []
      = Except.error PyErr.keyError := by
  decide

/-- C5 amended: an exception raised while fetching the listing page is
caught and check_new returns the empty candidate list, for the ADMIS and
the Saxo monitor alike. -/
theorem check_new_fetch_error_yields_empty :
    ∀ (e : FetchErr) (seen : List Str),
      ADMISMonitor.check_new (Except.error e) seen = Except.ok ([], seen)
      ∧ SaxoMonitor.check_new (Except.error e) seen = ([], seen) :=
  fun _ _ => ⟨rfl, rfl⟩

/-- C7: the title normalization of lines 353-361 maps the specified
boilerplate-and-duplication example to exactly the cleaned sentence. -/
theorem normalize_title_example :
    normalizeTitle
        "Options - 3 hours ago Fed signals rate pause. Fed signals rate pause.".data
      = "Fed signals rate pause.".data := by
  decide

/-- C8 counterexample: the whitespace-only title of two blanks is a
non-empty input the normalization of lines 353-361 maps to the empty
string: the restore guard of line 357 fires, but the collapse of line
358 merges the two blanks and the following strip removes the rest. -/
theorem normalize_title_empty_on_whitespace :
    normalizeTitle "  ".data = [] ∧ "  ".data ≠ ([] : Str) := by
  constructor
  · decide
  · decide

/-- Decomposition of a successful initial-segment test. -/
theorem listPre_exists : ∀ {g l : Str}, listPre g l = true → ∃ t, l = g ++ t := by
  intro g
  induction g with
  | nil => exact fun {l} _ => ⟨l, rfl⟩
  | cons a g ih =>
    intro l h
    cases l with
    | nil => simp [listPre] at h
    | cons b l2 =>
      simp only [listPre, Bool.and_eq_true, beq_iff_eq] at h
      obtain ⟨hab, hg⟩ := h
      subst hab
      obtain ⟨t, rfl⟩ := ih hg
      exact ⟨t, rfl⟩

/-- A character satisfying the scanned-for property inside the region
covered by consecutive copies of a group must occur in the group. -/
theorem anyCopies : ∀ (f : Nat) (g l : Str) (P : Char → Bool),
    (l.take (g.length * copiesCount f g l)).any P = true → g.any P = true := by
  intro f
  induction f with
  | zero => intro g l P h; simp [copiesCount] at h
  | succ f ih =>
    intro g l P h
    by_cases hp : listPre g l = true
    · obtain ⟨t, rfl⟩ := listPre_exists hp
      simp only [copiesCount, if_pos hp, List.drop_left] at h
      have he : g.length * (1 + copiesCount f g t)
          = g.length + g.length * copiesCount f g t := by ring
      rw [he, List.take_add, List.take_left, List.drop_left, List.any_append,
        Bool.or_eq_true] at h
      rcases h with h1 | h2
      · exact h1
      · exact ih g t P h2
    · simp only [copiesCount, if_neg hp, Nat.mul_zero, List.take_zero, List.any_nil] at h
      exact Bool.noConfusion h

/-- Inversion of a successful repeated-group match. -/
theorem squareAt_some : ∀ {l : Str} {kc : Nat × Nat}, squareAt l = some kc →
    kc.2 = kc.1 + (l.take kc.1).length
      * copiesCount l.length (l.take kc.1) (l.drop kc.1) := by
  intro l kc h
  unfold squareAt at h
  cases hf : (List.range' 1 (l.length / 2)).find?
      (fun k => (l.take k).all (fun c => !(c == '\n')) && listPre (l.take k) (l.drop k)) with
  | none => rw [hf] at h; exact absurd h (by simp)
  | some k =>
    rw [hf] at h
    have hkc := Option.some.inj h
    subst hkc
    rfl

/-- The collapse scan of line 358 preserves the presence of a character
satisfying any fixed property. -/
theorem collapse_any : ∀ (f : Nat) (l : Str) (P : Char → Bool),
    l.any P = true → (pyCollapseAux f l).any P = true := by
  intro f
  induction f with
  | zero => intro l P h; exact h
  | succ f ih =>
    intro l P h
    cases l with
    | nil => simp at h
    | cons c rest =>
      rw [pyCollapseAux]
      cases hsq : squareAt (c :: rest) with
      | none =>
        rw [List.any_cons, Bool.or_eq_true] at h
        rcases h with h1 | h2
        · simp [h1]
        · simp [ih rest P h2]
      | some kc =>
        rw [List.any_append, Bool.or_eq_true]
        have hsplit := List.take_append_drop kc.2 (c :: rest)
        rw [← hsplit, List.any_append, Bool.or_eq_true] at h
        rcases h with h1 | h2
        · have hc2 := squareAt_some hsq
          rw [hc2, List.take_add, List.any_append, Bool.or_eq_true] at h1
          rcases h1 with h3 | h4
          · exact Or.inl h3
          · exact Or.inl (anyCopies _ _ _ P h4)
        · exact Or.inr (ih _ P h2)

/-- An element failing the dropWhile test survives the drop. -/
theorem mem_dropWhile_of_not : ∀ (p : Char → Bool) (l : Str) (x : Char),
    x ∈ l → p x = false → x ∈ l.dropWhile p := by
  intro p l
  induction l with
  | nil => intro x hx; simp at hx
  | cons a l ih =>
    intro x hx hpx
    rw [List.dropWhile_cons]
    by_cases hpa : p a = true
    · rw [if_pos hpa]
      rcases List.mem_cons.mp hx with rfl | hmem
      · rw [hpa] at hpx; exact Bool.noConfusion hpx
      · exact ih x hmem hpx
    · rw [if_neg hpa]
      exact hx

/-- The head surviving a dropWhile fails the test. -/
theorem dropWhile_head_false : ∀ (p : Char → Bool) (l : Str) (b : Char) (ys : Str),
    l.dropWhile p = b :: ys → p b = false := by
  intro p l
  induction l with
  | nil => intro b ys h; simp at h
  | cons a l ih =>
    intro b ys h
    rw [List.dropWhile_cons] at h
    by_cases hpa : p a = true
    · rw [if_pos hpa] at h
      exact ih b ys h
    · rw [if_neg hpa] at h
      injection h with h1 _
      subst h1
      cases hb : p a
      · rfl
      · exact absurd hb hpa

/-- A string containing a non-whitespace character strips to a non-empty
string. -/
theorem pyStrip_ne_nil_of_any : ∀ (l : Str),
    l.any (fun c => !(pyIsSpace c)) = true → pyStrip l ≠ [] := by
  intro l h
  obtain ⟨x, hx, hpx⟩ := List.any_eq_true.mp h
  have hxf : pyIsSpace x = false := by
    cases hxs : pyIsSpace x
    · rfl
    · rw [hxs] at hpx; simp at hpx
  have h1 := mem_dropWhile_of_not pyIsSpace l x hx hxf
  have h2 := List.mem_reverse.mpr h1
  have h3 := mem_dropWhile_of_not pyIsSpace (l.dropWhile pyIsSpace).reverse x h2 hxf
  have h4 : x ∈ pyStrip l := by
    unfold pyStrip
    exact List.mem_reverse.mpr h3
  exact List.ne_nil_of_mem h4

/-- A non-empty stripped string contains a non-whitespace character. -/
theorem pyStrip_any : ∀ (l : Str),
    pyStrip l ≠ [] → (pyStrip l).any (fun c => !(pyIsSpace c)) = true := by
  intro l h
  cases hy : (l.dropWhile pyIsSpace).reverse.dropWhile pyIsSpace with
  | nil =>
    exact absurd (show pyStrip l = [] by unfold pyStrip; rw [hy]; rfl) h
  | cons b ys =>
    have hb : pyIsSpace b = false := dropWhile_head_false pyIsSpace _ b ys hy
    apply List.any_eq_true.mpr
    refine ⟨b, ?_, by rw [hb]; rfl⟩
    unfold pyStrip
    rw [hy]
    exact List.mem_reverse.mpr (List.mem_cons_self b ys)

/-- The boilerplate-stripping step preserves the presence of a
non-whitespace character. -/
theorem normalizeStep1_any : ∀ (raw : Str),
    raw.any (fun c => !(pyIsSpace c)) = true →
    (normalizeStep1 raw).any (fun c => !(pyIsSpace c)) = true := by
  intro raw h
  unfold normalizeStep1
  by_cases ht : pyStrip (stripBoilerplate raw) = []
  · rw [if_pos ht]; exact h
  · rw [if_neg ht]; exact pyStrip_any _ ht

/-- The collapse-and-strip step of line 358 keeps a string containing a
non-whitespace character non-empty. -/
theorem normalizeStep2_ne_nil : ∀ (t : Str),
    t.any (fun c => !(pyIsSpace c)) = true → normalizeStep2 t ≠ [] := by
  intro t h
  unfold normalizeStep2 pyCollapse
  exact pyStrip_ne_nil_of_any _ (collapse_any t.length t _ h)

/-- The sentence-deduplication step of lines 359-361 keeps a non-empty
string non-empty. -/
theorem normalizeStep3_ne_nil : ∀ (t2 : Str), t2 ≠ [] → normalizeStep3 t2 ≠ [] := by
  intro t2 h
  unfold normalizeStep3
  split
  · split
    · simp
    · exact h
  · exact h

/-- C8 amended: the normalization of lines 353-361 returns a non-empty
string for every raw title containing at least one non-whitespace
character; a whitespace-only title can normalize to the empty string. -/
theorem normalize_title_nonempty : ∀ (raw : Str),
    raw.any (fun c => !(pyIsSpace c)) = true → normalizeTitle raw ≠ [] := by
  intro raw h
  unfold normalizeTitle
  exact normalizeStep3_ne_nil _ (normalizeStep2_ne_nil _ (normalizeStep1_any raw h))

/-- C8 witness: the amended non-emptiness theorem applied to a concrete
title containing non-whitespace characters. -/
theorem normalize_title_nonempty_witness :
    "Fed note".data.any (fun c => !(pyIsSpace c)) = true
    ∧ normalizeTitle "Fed note".data ≠ [] :=
  ⟨by decide, normalize_title_nonempty "Fed note".data (by decide)⟩

/-- The trace of a monitor's dedup loop is exactly one persist event per
collected new record, in order. -/
theorem cycleCheckNew_trace : ∀ (arts : List Article) (seen : List Str),
    (cycleCheckNew arts seen).trace
      = (cycleCheckNew arts seen).fresh.map (fun a => Event.persist a.url) := by
  intro arts
  induction arts with
  | nil => intro _; rfl
  | cons a rest ih =>
    intro seen
    by_cases hm : a.url ∈ seen
    · simp only [cycleCheckNew, if_pos hm]
      exact ih seen
    · simp only [cycleCheckNew, if_neg hm, List.map_cons]
      rw [ih]

/-- The trace of the whole scrape is one persist event per scraped new
record, in order. -/
theorem scrapeSites_trace : ∀ (sites : List (List Article × List Str)),
    (scrapeSites sites).trace
      = (scrapeSites sites).fresh.map (fun a => Event.persist a.url) := by
  intro sites
  induction sites with
  | nil => rfl
  | cons s rest ih =>
    cases s with
    | mk listing seen =>
      simp only [scrapeSites, List.map_append]
      rw [cycleCheckNew_trace, ih]

/-- Every article queued for notification by the cycle body is one of
the scraped records. -/
theorem cycleBody_fresh_mem : ∀ (h : Str → Int) (arts : List Article) (cyc : List Str)
    (pending : List (Str × Article)) (p : Str × Article),
    p ∈ (cycleBody h arts cyc pending).fresh → p.2 ∈ arts := by
  intro h arts
  induction arts with
  | nil => intro cyc pending p hp; simp [cycleBody] at hp
  | cons a rest ih =>
    intro cyc pending p hp
    simp only [cycleBody] at hp
    split at hp
    · exact List.mem_cons_of_mem _ (ih _ _ p hp)
    · split at hp
      · exact List.mem_cons_of_mem _ (ih _ _ p hp)
      · split at hp
        · exact List.mem_cons_of_mem _ (ih _ _ p hp)
        · rcases List.mem_cons.mp hp with rfl | hmem
          · exact List.mem_cons_self _ _
          · exact List.mem_cons_of_mem _ (ih _ _ p hmem)

/-- Checking a trace that starts with a block of persist events amounts
to checking the remainder against the accumulated urls. -/
theorem traceOk_persists : ∀ (l : List Article) (ps : List Str) (t : List Event),
    traceOk ps (l.map (fun a => Event.persist a.url) ++ t) = traceOk (persAcc l ps) t := by
  intro l
  induction l with
  | nil => intro _ _; rfl
  | cons a rest ih =>
    intro ps t
    simp only [List.map_cons, List.cons_append, traceOk, persAcc]
    exact ih (a.url :: ps) t

/-- Accumulating persisted urls preserves earlier members. -/
theorem mem_persAcc_of_mem : ∀ (l : List Article) (ps : List Str) (u : Str),
    u ∈ ps → u ∈ persAcc l ps := by
  intro l
  induction l with
  | nil => intro _ _ h; exact h
  | cons a rest ih =>
    intro ps u h
    exact ih _ u (List.mem_cons_of_mem _ h)

/-- The url of every record in the scraped list is among the accumulated
persisted urls. -/
theorem url_mem_persAcc : ∀ (l : List Article) (ps : List Str) (a : Article),
    a ∈ l → a.url ∈ persAcc l ps := by
  intro l
  induction l with
  | nil => intro _ a h; simp at h
  | cons b rest ih =>
    intro ps a h
    rcases List.mem_cons.mp h with rfl | hmem
    · exact mem_persAcc_of_mem rest _ _ (List.mem_cons_self _ _)
    · exact ih _ a hmem

/-- A block of notifications for articles whose urls are all persisted
checks out against the persisted set. -/
theorem traceOk_notifies : ∀ (ns : List (Str × Article)) (ps : List Str),
    (∀ p ∈ ns, p.2.url ∈ ps) →
    traceOk ps (ns.map (fun p => Event.notify p.2)) = true := by
  intro ns
  induction ns with
  | nil => intro _ _; rfl
  | cons q rest ih =>
    intro ps h
    have h1 : q.2.url ∈ ps := h q (List.mem_cons_self _ _)
    simp only [List.map_cons, traceOk]
    rw [ih ps (fun p hp => h p (List.mem_cons_of_mem _ hp))]
    simp [h1]

/-- C2: in every scrape cycle, the cycle's event trace persists an
article's url to the durable seen file strictly before any notification
for that article is sent; starting from the empty persisted set, every
notify event is preceded by a persist event for the notified article's
url. -/
theorem cycle_persists_seen_before_notify :
    ∀ (pyHash : Str → Int) (now : Int) (sites : List (List Article × List Str))
      (pending : List (Str × Article)),
      traceOk [] (check_sites_callback pyHash now sites pending).trace = true := by
  intro pyHash now sites pending
  unfold check_sites_callback
  cases hev : evictPending ⟨now - retentionMinutes, true⟩ pending with
  | error e => rfl
  | ok pendE =>
    rw [show (CycleResult.mk (scrapeSites sites).seens
        (cycleBody pyHash (scrapeSites sites).fresh [] pendE).pending
        (cycleBody pyHash (scrapeSites sites).fresh [] pendE).fresh
        ((scrapeSites sites).trace
          ++ (cycleBody pyHash (scrapeSites sites).fresh [] pendE).fresh.map
               (fun p => Event.notify p.2)) false).trace
      = (scrapeSites sites).trace
          ++ (cycleBody pyHash (scrapeSites sites).fresh [] pendE).fresh.map
               (fun p => Event.notify p.2) from rfl]
    rw [scrapeSites_trace, traceOk_persists]
    apply traceOk_notifies
    intro p hp
    exact url_mem_persAcc _ _ _ (cycleBody_fresh_mem pyHash _ _ _ p hp)

/-- C2 witness: the trace discipline evaluated on a concrete cycle that
scrapes one new article and sends one notification. -/
theorem cycle_persists_seen_before_notify_witness :
    traceOk [] (check_sites_callback (fun _ => 0) 0
      [([⟨"Macro outlook".data, "https://www.home.saxo/content/articles/m".data,
          [], "Saxo Bank Research".data⟩], [])] []).trace = true :=
  cycle_persists_seen_before_notify (fun _ => 0) 0
    [([⟨"Macro outlook".data, "https://www.home.saxo/content/articles/m".data,
        [], "Saxo Bank Research".data⟩], [])] []

/-- The dedup loop never removes a url from the seen set. -/
theorem cycleCheckNew_seen_mono : ∀ (arts : List Article) (seen : List Str) (u : Str),
    u ∈ seen → u ∈ (cycleCheckNew arts seen).seen := by
  intro arts
  induction arts with
  | nil => intro _ _ h; exact h
  | cons a rest ih =>
    intro seen u h
    by_cases hm : a.url ∈ seen
    · simp only [cycleCheckNew, if_pos hm]
      exact ih seen u h
    · simp only [cycleCheckNew, if_neg hm]
      exact ih _ u (List.mem_cons_of_mem _ h)

/-- After the dedup loop, the url of every candidate of the listing is
in the persisted seen set. -/
theorem cycleCheckNew_seen_all : ∀ (arts : List Article) (seen : List Str) (a : Article),
    a ∈ arts → a.url ∈ (cycleCheckNew arts seen).seen := by
  intro arts
  induction arts with
  | nil => intro _ a h; simp at h
  | cons b rest ih =>
    intro seen a h
    by_cases hm : b.url ∈ seen
    · simp only [cycleCheckNew, if_pos hm]
      rcases List.mem_cons.mp h with rfl | hmem
      · exact cycleCheckNew_seen_mono rest seen _ hm
      · exact ih seen a hmem
    · simp only [cycleCheckNew, if_neg hm]
      rcases List.mem_cons.mp h with rfl | hmem
      · exact cycleCheckNew_seen_mono rest _ _ (List.mem_cons_self _ _)
      · exact ih _ a hmem

/-- A listing whose urls are all already seen yields no new records, no
trace events and an unchanged seen set. -/
theorem cycleCheckNew_stable : ∀ (arts : List Article) (seen : List Str),
    (∀ a ∈ arts, a.url ∈ seen) → cycleCheckNew arts seen = ⟨[], seen, []⟩ := by
  intro arts
  induction arts with
  | nil => intro _ _; rfl
  | cons a rest ih =>
    intro seen h
    have hm : a.url ∈ seen := h a (List.mem_cons_self _ _)
    simp only [cycleCheckNew, if_pos hm]
    exact ih seen (fun b hb => h b (List.mem_cons_of_mem _ hb))

/-- Zipping the component projections of a pair list recovers the list. -/
theorem zip_map_fst_snd : ∀ {α β : Type} (l : List (α × β)),
    (l.map Prod.fst).zip (l.map Prod.snd) = l := by
  intro α β l
  induction l with
  | nil => rfl
  | cons q rest ih =>
    cases q with
    | mk x y => simp only [List.map_cons, List.zip_cons_cons, ih]

/-- Scraping the same listings again, against the seen sets persisted by
a first scrape, yields no new records and no events. -/
theorem scrapeSites_again : ∀ (sites : List (List Article × List Str)),
    scrapeSites ((sites.map Prod.fst).zip (scrapeSites sites).seens)
      = ⟨[], (scrapeSites sites).seens, []⟩ := by
  intro sites
  induction sites with
  | nil => rfl
  | cons s rest ih =>
    cases s with
    | mk listing seen =>
      have hstable : cycleCheckNew listing (cycleCheckNew listing seen).seen
          = ⟨[], (cycleCheckNew listing seen).seen, []⟩ :=
        cycleCheckNew_stable _ _ (fun a ha => cycleCheckNew_seen_all listing seen a ha)
      simp only [List.zip] at ih ⊢
      simp only [List.map_cons, List.zipWith_cons_cons]
      simp only [scrapeSites, hstable, ih]
      simp

/-- With an aware cutoff the eviction filter's outcome does not depend
on the cutoff's coordinate: entries without a usable date are dropped or
raise ValueError, and dated entries always raise TypeError. -/
theorem evictionKeep_cutoff_irrel : ∀ (s t : Int) (a : Article),
    evictionKeep ⟨s, true⟩ a = evictionKeep ⟨t, true⟩ a := by
  intro s t a
  unfold evictionKeep
  by_cases h1 : a.date.isEmpty = true
  · rw [if_pos h1, if_pos h1]
  · rw [if_neg h1, if_neg h1]
    by_cases h2 : pyLowerStr a.date = "n/a".data
    · rw [if_pos h2, if_pos h2]
    · rw [if_neg h2, if_neg h2]
      cases strptimeHM a.date with
      | none => rfl
      | some st => rfl

/-- With an aware cutoff the whole eviction's outcome does not depend on
the cutoff's coordinate. -/
theorem evictPending_cutoff_irrel : ∀ (s t : Int) (p : List (Str × Article)),
    evictPending ⟨s, true⟩ p = evictPending ⟨t, true⟩ p := by
  intro s t p
  induction p with
  | nil => rfl
  | cons q rest ih =>
    cases q with
    | mk id a =>
      simp only [evictPending, evictionKeep_cutoff_irrel s t a, ih]

/-- C6: running the scrape cycle a second time against the same parsed
listings, with the seen sets and the pending registry persisted by the
first run, sends zero notifications, for any interpreter hash functions
and any wall-clock coordinates of the two runs. -/
theorem second_cycle_sends_no_notifications :
    ∀ (h1 h2 : Str → Int) (n1 n2 : Int) (sites : List (List Article × List Str))
      (pending : List (Str × Article)),
      (check_sites_callback h2 n2
        ((sites.map Prod.fst).zip (check_sites_callback h1 n1 sites pending).seenAfter)
        (check_sites_callback h1 n1 sites pending).pendingAfter).sent = [] := by
  intro h1 h2 n1 n2 sites pending
  unfold check_sites_callback
  cases hev : evictPending ⟨n1 - retentionMinutes, true⟩ pending with
  | error e =>
    dsimp only
    rw [zip_map_fst_snd sites,
      evictPending_cutoff_irrel (n2 - retentionMinutes) (n1 - retentionMinutes) pending,
      hev]
  | ok pendE =>
    dsimp only
    cases hev2 : evictPending ⟨n2 - retentionMinutes, true⟩
        (cycleBody h1 (scrapeSites sites).fresh [] pendE).pending with
    | error e2 => rfl
    | ok pendE2 =>
      rw [scrapeSites_again sites]
      rfl

/-- C6 witness: the two-run theorem evaluated at a concrete cycle over
one listing with one article and an empty initial state. -/
theorem second_cycle_sends_no_notifications_witness :
    (check_sites_callback (fun _ => 0) 0
      ((sampleSitesC6.map Prod.fst).zip
        (check_sites_callback (fun _ => 0) 0 sampleSitesC6 []).seenAfter)
      (check_sites_callback (fun _ => 0) 0 sampleSitesC6 []).pendingAfter).sent = [] :=
  second_cycle_sends_no_notifications (fun _ => 0) (fun _ => 0) 0 0 sampleSitesC6 []

/-- Every pair the cycle body queues for notification passes the
podcast and webinar filter, and every pair it leaves in the registry was
either already registered or passes the filter. -/
theorem cycleBody_clean : ∀ (h : Str → Int) (arts : List Article) (cyc : List Str)
    (pending : List (Str × Article)) (p : Str × Article),
    (p ∈ (cycleBody h arts cyc pending).fresh → isSkippedTitle p.2.title = false)
    ∧ (p ∈ (cycleBody h arts cyc pending).pending →
        p ∈ pending ∨ isSkippedTitle p.2.title = false) := by
  intro h arts
  induction arts with
  | nil =>
    intro cyc pending p
    constructor
    · intro hp; simp [cycleBody] at hp
    · intro hp
      simp only [cycleBody] at hp
      exact Or.inl hp
  | cons a rest ih =>
    intro cyc pending p
    constructor
    · intro hp
      simp only [cycleBody] at hp
      by_cases h1 : a.url ∈ cyc
      · rw [if_pos h1] at hp; exact (ih _ _ p).1 hp
      · rw [if_neg h1] at hp
        by_cases h2 : isSkippedTitle a.title = true
        · rw [if_pos h2] at hp; exact (ih _ _ p).1 hp
        · rw [if_neg h2] at hp
          by_cases h3 : identifierOf h a.source a.url ∈ pending.map Prod.fst
          · rw [if_pos h3] at hp; exact (ih _ _ p).1 hp
          · rw [if_neg h3] at hp
            rcases List.mem_cons.mp hp with rfl | hmem
            · cases hb : isSkippedTitle a.title
              · rfl
              · exact absurd hb h2
            · exact (ih _ _ p).1 hmem
    · intro hp
      simp only [cycleBody] at hp
      by_cases h1 : a.url ∈ cyc
      · rw [if_pos h1] at hp; exact (ih _ _ p).2 hp
      · rw [if_neg h1] at hp
        by_cases h2 : isSkippedTitle a.title = true
        · rw [if_pos h2] at hp; exact (ih _ _ p).2 hp
        · rw [if_neg h2] at hp
          by_cases h3 : identifierOf h a.source a.url ∈ pending.map Prod.fst
          · rw [if_pos h3] at hp; exact (ih _ _ p).2 hp
          · rw [if_neg h3] at hp
            rcases (ih _ _ p).2 hp with hmem | hok
            · rcases List.mem_append.mp hmem with hl | hr
              · exact Or.inl hl
              · rcases List.mem_cons.mp hr with rfl | hnil
                · refine Or.inr ?_
                  cases hb : isSkippedTitle a.title
                  · rfl
                  · exact absurd hb h2
                · simp at hnil
            · exact Or.inr hok

/-- The eviction only removes entries: every surviving pair was in the
registry before. -/
theorem evictPending_subset : ∀ (c : PyDateTime) (p out : List (Str × Article)),
    evictPending c p = .ok out → ∀ q ∈ out, q ∈ p := by
  intro c p
  induction p with
  | nil =>
    intro out h q hq
    simp only [evictPending] at h
    have hout := Except.ok.inj h
    subst hout
    simp at hq
  | cons e rest ih =>
    intro out h q hq
    cases e with
    | mk id a =>
      simp only [evictPending] at h
      cases hk : evictionKeep c a with
      | error er => rw [hk] at h; exact Except.noConfusion h
      | ok keep =>
        rw [hk] at h
        cases hrest : evictPending c rest with
        | error er => rw [hrest] at h; exact Except.noConfusion h
        | ok rest2 =>
          rw [hrest] at h
          have hout := Except.ok.inj h
          cases keep with
          | false =>
            simp at hout
            subst hout
            exact List.mem_cons_of_mem _ (ih rest2 hrest q hq)
          | true =>
            simp at hout
            subst hout
            rcases List.mem_cons.mp hq with rfl | hq2
            · exact List.mem_cons_self _ _
            · exact List.mem_cons_of_mem _ (ih rest2 hrest q hq2)

/-- C9: a candidate whose normalized title contains "podcast" or
"webinar" case-insensitively is skipped by the cycle: every notified
pair passes the filter, and every registry entry after the cycle was
registered before the cycle or passes the filter. -/
theorem skipped_titles_never_registered_or_notified :
    ∀ (pyHash : Str → Int) (now : Int) (sites : List (List Article × List Str))
      (pending : List (Str × Article)) (p : Str × Article),
      (p ∈ (check_sites_callback pyHash now sites pending).sent →
        isSkippedTitle p.2.title = false)
      ∧ (p ∈ (check_sites_callback pyHash now sites pending).pendingAfter →
          p ∈ pending ∨ isSkippedTitle p.2.title = false) := by
  intro pyHash now sites pending p
  unfold check_sites_callback
  cases hev : evictPending ⟨now - retentionMinutes, true⟩ pending with
  | error e =>
    constructor
    · intro hp; simp at hp
    · intro hp
      exact Or.inl hp
  | ok pendE =>
    constructor
    · intro hp
      exact (cycleBody_clean pyHash _ _ _ p).1 hp
    · intro hp
      rcases (cycleBody_clean pyHash _ _ _ p).2 hp with hmem | hok
      · exact Or.inl (evictPending_subset _ _ _ hev p hmem)
      · exact Or.inr hok

/-- C9 witness: the skip-filter theorem applied to a concrete cycle that
notifies and registers one article, discharging both membership
hypotheses by evaluation. -/
theorem skipped_titles_witness :
    isSkippedTitle sampleArticleC9.title = false
    ∧ (samplePairC9 ∈ ([] : List (Str × Article))
        ∨ isSkippedTitle sampleArticleC9.title = false) :=
  ⟨(skipped_titles_never_registered_or_notified (fun _ => 0) 0 sampleSitesC9 []
      samplePairC9).1 (by decide),
   (skipped_titles_never_registered_or_notified (fun _ => 0) 0 sampleSitesC9 []
      samplePairC9).2 (by decide)⟩

/-- C10: a /start command from a user who is neither the admin nor in
the allowed list is answered with exactly the single message
"Unauthorized."; a user in the admin-plus-allowed set receives the
running confirmation. -/
theorem start_bot_authorization :
    ∀ (adminId : Int) (allowed : List Int) (userId : Int),
      (userId ≠ adminId ∧ userId ∉ allowed →
        start_bot adminId allowed userId = ["Unauthorized.".data])
      ∧ (userId ∈ adminId :: allowed →
        start_bot adminId allowed userId
          = ["Bot is running. I will notify you of new research articles.".data]) := by
  intro adminId allowed userId
  constructor
  · intro h
    have hnot : userId ∉ adminId :: allowed := by
      intro hmem
      rcases List.mem_cons.mp hmem with h1 | h2
      · exact h.1 h1
      · exact h.2 h2
    unfold start_bot
    rw [if_pos hnot]
  · intro h
    unfold start_bot
    rw [if_neg (fun hn => hn h)]

/-- C10 witness: the authorization theorem evaluated for a stranger and
for an allowed user. -/
theorem start_bot_authorization_witness :
    start_bot 1 [2] 3 = ["Unauthorized.".data]
    ∧ start_bot 1 [2] 2
        = ["Bot is running. I will notify you of new research articles.".data] :=
  ⟨(start_bot_authorization 1 [2] 3).1 ⟨by decide, by decide⟩,
   (start_bot_authorization 1 [2] 2).2 (by decide)⟩
